import Mathlib

/-!
Verification of the position-management engine of the `mon` repository.

The definitions below are a shallow embedding of the Python sources:
  * `RiskEngine.*`    embeds `src/risk_engine.py` (class `RiskEngine`);
  * `BinanceEngine.*` embeds the technical calculator of `src/binance_engine.py`;
  * `TradeManager.*`  embeds the store / tick / statistics logic of
    `src/trade_manager.py` (class `TradeManager`);
  * `MainPy.*`        embeds the margin-health logic of `src/main.py`.

Prices and quantities are Python floats in the source; they are embedded as
rationals (ℚ), with exact arithmetic standing in for the float arithmetic.
Exchange and notifier I/O is modelled by explicit parameters: a close order's
outcome is a `Bool` supplied per action, and a fetch of the open positions is a
`FetchResult` (the source catches every exception of the fetch and returns the
empty list, which `get_open_positions` reflects).
-/

/-- `position['side']`: `'LONG'` or `'SHORT'`. -/
inductive Side where
  | LONG
  | SHORT
  deriving DecidableEq

/-- One entry of `risk_settings['take_profit_levels']`:
`{'profit': ..., 'close': ...}`. -/
structure TPLevelCfg where
  profit : ℚ
  close : ℚ
  deriving DecidableEq, Inhabited

/-- The dict built by `RiskEngine._calculate_stop_loss_levels` /
`RiskEngine._get_default_stop_levels` (the fields the checks read). -/
structure StopLevels where
  full_stop : ℚ
  partial_stop : ℚ
  deriving DecidableEq

/-- The risk settings of `RiskEngine._initialize_risk_settings`. -/
structure RiskSettings where
  partial_stop_percent : ℚ
  partial_trigger_percent : ℚ
  min_stop_loss : ℚ
  max_stop_loss : ℚ
  volatility_multiplier : ℚ
  take_profit_levels : List TPLevelCfg
  deriving DecidableEq

/-- A managed position as the risk checks read it: the keys of the
`active_positions[symbol]` dict that `_check_stop_loss` / `_check_take_profit`
use.  `stop_loss_levels` is `none` when the key is missing (the dict is
populated lazily); `take_profit_levels_hit` is the mutable set of already-hit
level numbers (kept as a list, membership being what the source tests). -/
structure Position where
  quantity : ℚ
  side : Side
  entry_price : ℚ
  current_price : ℚ
  stop_loss_levels : Option StopLevels
  partial_stop_hit : Bool
  take_profit_levels_hit : List Nat
  deriving DecidableEq

/-- `action['type']` of the dicts built by the risk engine. -/
inductive RiskActionType where
  | PARTIAL_STOP_LOSS
  | FULL_STOP_LOSS
  | TAKE_PROFIT
  deriving DecidableEq

/-- An action dict as the executor reads it: its `type`, its `quantity`, and
(for take-profit actions) its `level`. -/
structure RiskAction where
  type : RiskActionType
  quantity : ℚ
  level : Option Nat
  deriving DecidableEq

namespace RiskEngine

/-- `RiskEngine._initialize_risk_settings` with an empty config: every
`config.get` falls back to its default. -/
def initialize_risk_settings : RiskSettings where
  partial_stop_percent := 3/10
  partial_trigger_percent := 4/10
  min_stop_loss := 15/1000
  max_stop_loss := 5/100
  volatility_multiplier := 3/2
  take_profit_levels :=
    [⟨25/10000, 5/10⟩, ⟨30/10000, 3/10⟩, ⟨35/10000, 2/10⟩]

/-- `RiskEngine._should_trigger_stop`. -/
def should_trigger_stop (current_price stop_price : ℚ) (side : Side) : Bool :=
  match side with
  | .LONG => current_price ≤ stop_price
  | .SHORT => stop_price ≤ current_price

/-- `RiskEngine._should_take_profit`. -/
def should_take_profit (current_price target_price : ℚ) (side : Side) : Bool :=
  match side with
  | .LONG => target_price ≤ current_price
  | .SHORT => current_price ≤ target_price

/-- `RiskEngine._calculate_take_profit_price`. -/
def calculate_take_profit_price (entry_price profit_percent : ℚ) (side : Side) : ℚ :=
  match side with
  | .LONG => entry_price * (1 + profit_percent)
  | .SHORT => entry_price * (1 - profit_percent)

/-- `RiskEngine._calculate_base_stop_loss` (non-error path). -/
def calculate_base_stop_loss (rs : RiskSettings) (side : Side)
    (atr support resistance current_price : ℚ) : ℚ :=
  match side with
  | .LONG => max (support * (1 - 1/1000)) (current_price - atr * rs.volatility_multiplier)
  | .SHORT => min (resistance * (1 + 1/1000)) (current_price + atr * rs.volatility_multiplier)

/-- `RiskEngine._apply_stop_loss_limits`. -/
def apply_stop_loss_limits (rs : RiskSettings) (entry_price base_stop : ℚ)
    (side : Side) : ℚ :=
  let min_stop_distance := entry_price * rs.min_stop_loss
  let max_stop_distance := entry_price * rs.max_stop_loss
  match side with
  | .LONG =>
    let min_stop_price := entry_price - max_stop_distance
    let max_stop_price := entry_price - min_stop_distance
    min (max base_stop min_stop_price) max_stop_price
  | .SHORT =>
    let min_stop_price := entry_price + max_stop_distance
    let max_stop_price := entry_price + min_stop_distance
    max (min base_stop min_stop_price) max_stop_price

/-- `RiskEngine._calculate_partial_stop_price`. -/
def calculate_partial_stop_price (rs : RiskSettings) (entry_price full_stop : ℚ)
    (side : Side) : ℚ :=
  match side with
  | .LONG => entry_price - (entry_price - full_stop) * rs.partial_trigger_percent
  | .SHORT => entry_price + (full_stop - entry_price) * rs.partial_trigger_percent

/-- `RiskEngine._get_default_stop_levels`: the fallback used when the stop-loss
computation raises. -/
def get_default_stop_levels (entry_price : ℚ) (side : Side) : StopLevels :=
  match side with
  | .LONG => ⟨entry_price * (98/100), entry_price * (992/1000)⟩
  | .SHORT => ⟨entry_price * (102/100), entry_price * (1008/1000)⟩

/-- `RiskEngine._check_stop_loss`: the partial stop is evaluated first (it sets
`position['partial_stop_hit'] = True` the moment its action is appended), then
the full stop, whose quantity reads the possibly-just-updated flag. -/
def check_stop_loss (rs : RiskSettings) (p : Position) : List RiskAction × Position :=
  match p.stop_loss_levels with
  | none => ([], p)
  | some sl =>
    let hitPartial :=
      !p.partial_stop_hit && should_trigger_stop p.current_price sl.partial_stop p.side
    let acts1 : List RiskAction :=
      if hitPartial then
        [⟨RiskActionType.PARTIAL_STOP_LOSS, p.quantity * rs.partial_stop_percent, none⟩]
      else []
    let p1 := if hitPartial then { p with partial_stop_hit := true } else p
    let acts2 : List RiskAction :=
      if should_trigger_stop p.current_price sl.full_stop p.side then
        let remaining_quantity :=
          if p1.partial_stop_hit then p.quantity * (1 - rs.partial_stop_percent)
          else p.quantity
        [⟨RiskActionType.FULL_STOP_LOSS, remaining_quantity, none⟩]
      else []
    (acts1 ++ acts2, p1)

/-- The `for i, level in enumerate(...)` loop of `RiskEngine._check_take_profit`:
`level_num` starts at 1, already-hit levels are skipped, and a fired level is
appended to the hit set before the remaining levels are scanned. -/
def check_take_profit_loop (p : Position) :
    List TPLevelCfg → Nat → List Nat → List RiskAction × List Nat
  | [], _, hit => ([], hit)
  | lvl :: rest, level_num, hit =>
    if level_num ∈ hit then check_take_profit_loop p rest (level_num + 1) hit
    else
      let target_price := calculate_take_profit_price p.entry_price lvl.profit p.side
      if should_take_profit p.current_price target_price p.side then
        let res := check_take_profit_loop p rest (level_num + 1) (hit ++ [level_num])
        (⟨RiskActionType.TAKE_PROFIT, p.quantity * lvl.close, some level_num⟩ :: res.1, res.2)
      else check_take_profit_loop p rest (level_num + 1) hit

/-- `RiskEngine._check_take_profit`. -/
def check_take_profit (rs : RiskSettings) (p : Position) : List RiskAction × Position :=
  let res := check_take_profit_loop p rs.take_profit_levels 1 p.take_profit_levels_hit
  (res.1, { p with take_profit_levels_hit := res.2 })

/-- `RiskEngine._check_trailing_stop` (a stub in the source). -/
def check_trailing_stop (_p : Position) : List RiskAction := []

/-- `RiskEngine.calculate_actions`, given the position's already-refreshed
levels: stop-loss checks run first; if a `FULL_STOP_LOSS` was emitted the
remaining checks are skipped; otherwise take-profit and trailing checks run. -/
def calculate_actions (rs : RiskSettings) (p : Position) : List RiskAction × Position :=
  let sl := check_stop_loss rs p
  if sl.1.any (fun a => decide (a.type = RiskActionType.FULL_STOP_LOSS)) then sl
  else
    let tp := check_take_profit rs sl.2
    (sl.1 ++ tp.1 ++ check_trailing_stop tp.2, tp.2)

end RiskEngine

/-- One OHLC candle as `BinanceEngine._calculate_atr` reads it
(`high`, `low`, `close` of the formatted kline dict). -/
structure Kline where
  high : ℚ
  low : ℚ
  close : ℚ
  deriving DecidableEq, Inhabited

namespace BinanceEngine

/-- The true range of candle `cur` against the previous candle `prev`:
`max(high - low, abs(high - prev_close), abs(low - prev_close))`. -/
def true_range (prev cur : Kline) : ℚ :=
  max (cur.high - cur.low) (max |cur.high - prev.close| |cur.low - prev.close|)

/-- The `for i in range(1, len(klines))` loop of `_calculate_atr`: the true
range of each candle against its predecessor, oldest first. -/
def true_ranges (klines : List Kline) : List ℚ :=
  List.zipWith true_range klines klines.tail

/-- Python's `l[-n:]` for `0 < n ≤ len(l)`: the last `n` elements. -/
def lastN (n : Nat) (l : List ℚ) : List ℚ :=
  l.drop (l.length - n)

/-- `BinanceEngine._calculate_atr` (non-error path): with fewer than
`period + 1` candles it returns the constant `0.01`; otherwise the arithmetic
mean of the last `period` true ranges. -/
def calculate_atr (klines : List Kline) (period : Nat := 14) : ℚ :=
  if klines.length < period + 1 then 1/100
  else (lastN period (true_ranges klines)).sum / (period : ℚ)

end BinanceEngine

/-- A row of `BinanceEngine.get_open_positions`: the fields that
`TradeManager._initialize_position` copies into the store. -/
structure PositionSnapshot where
  symbol : String
  quantity : ℚ
  side : Side
  entry_price : ℚ
  leverage : ℚ
  deriving DecidableEq

/-- A value of the `active_positions` store of `TradeManager`: the exchange
snapshot plus the management fields `_initialize_position` attaches. -/
structure StoredPosition where
  symbol : String
  quantity : ℚ
  side : Side
  entry_price : ℚ
  leverage : ℚ
  partial_stop_hit : Bool
  take_profit_levels_hit : List Nat
  deriving DecidableEq

/-- The outcome of `BinanceEngine.get_open_positions`' HTTP call: either the
exchange's position list, or an exception (timeout, 5xx, rate-limit, ...)
raised inside the client call. -/
inductive FetchResult where
  | ok (positions : List PositionSnapshot)
  | err
  deriving DecidableEq

/-- `BinanceEngine.get_open_positions`: both `except` arms of the source catch
the exception, log it and return the empty list, so a failed fetch is
indistinguishable from an account with no open positions. -/
def get_open_positions : FetchResult → List PositionSnapshot
  | .ok positions => positions
  | .err => []

/-- The performance counters of `TradeManager` that the claims read. -/
structure PerformanceStats where
  total_take_profits : Nat
  winning_trades : Nat
  losing_trades : Nat
  total_stop_losses : Nat
  deriving DecidableEq

namespace TradeManager

/-- The counters at `TradeManager.__init__`. -/
def initial_stats : PerformanceStats := ⟨0, 0, 0, 0⟩

/-- `TradeManager._update_performance_stats` (counter part; the pnl total is
not modelled): every executed `TAKE_PROFIT` bumps both `total_take_profits`
and `winning_trades`; stop losses bump `total_stop_losses`, and a full stop
also bumps `losing_trades`. -/
def update_performance_stats (a : RiskAction) (st : PerformanceStats) : PerformanceStats :=
  match a.type with
  | .TAKE_PROFIT =>
    { st with total_take_profits := st.total_take_profits + 1,
              winning_trades := st.winning_trades + 1 }
  | .PARTIAL_STOP_LOSS =>
    { st with total_stop_losses := st.total_stop_losses + 1 }
  | .FULL_STOP_LOSS =>
    { st with total_stop_losses := st.total_stop_losses + 1,
              losing_trades := st.losing_trades + 1 }

/-- The state `TradeManager._execute_risk_action` threads through one tick's
action list: the position dict (mutated in place), whether the symbol was
deleted from `active_positions`, and the counters. -/
structure ExecState where
  pos : Position
  removed : Bool
  stats : PerformanceStats
  deriving DecidableEq

/-- `TradeManager._execute_risk_action` for one action: `close_ok` is the
`result['success']` of the exchange close.  On success the stats are updated,
a full stop removes the symbol, any other action reduces the in-store
quantity; on failure only an error is logged. -/
def execute_risk_action (close_ok : Bool) (a : RiskAction) (es : ExecState) : ExecState :=
  if close_ok then
    let st := update_performance_stats a es.stats
    if a.type = RiskActionType.FULL_STOP_LOSS then
      { es with removed := true, stats := st }
    else
      { es with pos := { es.pos with quantity := es.pos.quantity - a.quantity }, stats := st }
  else es

/-- The `for action in risk_actions` loop of `_manage_single_position`:
`close_ok i` is the success of the close submitted for the `i`-th action. -/
def execute_actions (close_ok : Nat → Bool) : Nat → List RiskAction → ExecState → ExecState
  | _, [], es => es
  | i, a :: rest, es =>
    execute_actions close_ok (i + 1) rest (execute_risk_action (close_ok i) a es)

/-- One level-check pass of `_manage_single_position` for one position whose
price and levels are already refreshed (fields of `p`): compute the risk
actions, then execute them in order.  Returns the emitted actions and the
final state. -/
def level_check_tick (rs : RiskSettings) (close_ok : Nat → Bool) (p : Position)
    (st : PerformanceStats) : List RiskAction × ExecState :=
  let ca := RiskEngine.calculate_actions rs p
  (ca.1, execute_actions close_ok 0 ca.1 ⟨ca.2, false, st⟩)

/-- `TradeManager._initialize_position`: the store entry built for a snapshot.
The management fields are (re)set unconditionally:
`'take_profit_levels_hit': set(), 'partial_stop_hit': False`. -/
def initialize_position (snap : PositionSnapshot) : StoredPosition :=
  ⟨snap.symbol, snap.quantity, snap.side, snap.entry_price, snap.leverage, false, []⟩

/-- `self.active_positions[symbol] = value`: replace the entry of the symbol,
or append it when the symbol is new. -/
def store_set (store : List StoredPosition) (sp : StoredPosition) : List StoredPosition :=
  if store.any (fun e => decide (e.symbol = sp.symbol)) then
    store.map (fun e => if e.symbol = sp.symbol then sp else e)
  else store ++ [sp]

/-- `TradeManager._detect_and_manage_trades`: fetch the open positions (an
exchange error yields `[]`), keep the allow-listed ones, `_initialize_position`
the new symbols, then walk the store: a symbol the fetch did not report is
deleted, every other one goes through `_manage_single_position`, abstracted
here as `manage` (`none` = the position was fully closed and removed). -/
def detect_and_manage_trades (symbols : List String) (fetch : FetchResult)
    (manage : StoredPosition → Option StoredPosition)
    (store : List StoredPosition) : List StoredPosition :=
  let supported :=
    (get_open_positions fetch).filter (fun s => symbols.contains s.symbol)
  let supported_symbols := supported.map (fun s => s.symbol)
  let new_positions :=
    supported.filter (fun s => !(store.any (fun e => decide (e.symbol = s.symbol))))
  let store1 := new_positions.foldl (fun st s => store_set st (initialize_position s)) store
  store1.filterMap (fun e => if supported_symbols.contains e.symbol then manage e else none)

/-- `TradeManager._check_margin_health`: the margin ratio (reported by
`get_margin_info` in percent) is compared against the configured threshold and
a warning is sent when it is exceeded.  The tick submits no close order, which
the always-empty second component records (`quantities` is the store the tick
could have read). -/
def check_margin_health (margin_risk_threshold margin_ratio : ℚ)
    (_quantities : List ℚ) : Bool × List ℚ :=
  (decide (margin_risk_threshold < margin_ratio), [])

end TradeManager

namespace MainPy

/-- `TradeManager._reduce_positions_automatically` of `src/main.py`: close 50%
of every managed position.  The result is the list of submitted close
quantities. -/
def reduce_positions_automatically (quantities : List ℚ) : List ℚ :=
  quantities.map (fun q => q * (1/2))

/-- `TradeManager.check_margin_health` of `src/main.py`: warn when
`margin_ratio >= margin_risk_threshold` (a fraction there, default `0.7`), and
inside that branch reduce every position by half when `margin_ratio > 0.85`.
Returns (warning sent, submitted close quantities). -/
def check_margin_health (margin_risk_threshold margin_ratio : ℚ)
    (quantities : List ℚ) : Bool × List ℚ :=
  if margin_risk_threshold ≤ margin_ratio then
    (true, if (85 : ℚ)/100 < margin_ratio then reduce_positions_automatically quantities else [])
  else (false, [])

end MainPy

open RiskEngine TradeManager BinanceEngine

/-! ## Shared concrete data

`samplePosition price` is the LONG position of the spec's Scenario A at a
given current price: entry 300, quantity 0.10 scaled to 1, and the stop levels
the engine computes there (`full_stop = 295.5`, `partial_stop = 298.2`). -/

/-- A managed LONG position: entry 300, quantity 1, full stop 295.5, partial
stop 298.2, no level hit yet, observed at `price`. -/
def samplePosition (price : ℚ) : Position :=
  { quantity := 1
    side := Side.LONG
    entry_price := 300
    current_price := price
    stop_loss_levels := some ⟨591/2, 1491/5⟩
    partial_stop_hit := false
    take_profit_levels_hit := [] }

/-! ## Helper lemmas -/

/-- `execute_risk_action` never touches the hit flags of the position: it only
updates the stats, the removal mark and the quantity. -/
theorem execute_risk_action_flags (ok : Bool) (a : RiskAction) (es : ExecState) :
    (execute_risk_action ok a es).pos.partial_stop_hit = es.pos.partial_stop_hit ∧
    (execute_risk_action ok a es).pos.take_profit_levels_hit =
      es.pos.take_profit_levels_hit := by
  unfold execute_risk_action
  split_ifs <;> simp

/-- Executing a tick's action list never touches the hit flags. -/
theorem execute_actions_flags (ok : Nat → Bool) (acts : List RiskAction) (i : Nat)
    (es : ExecState) :
    (execute_actions ok i acts es).pos.partial_stop_hit = es.pos.partial_stop_hit ∧
    (execute_actions ok i acts es).pos.take_profit_levels_hit =
      es.pos.take_profit_levels_hit := by
  induction acts generalizing i es with
  | nil => exact ⟨rfl, rfl⟩
  | cons a rest ih =>
    have hx := execute_risk_action_flags (ok i) a es
    have h := ih (i + 1) (execute_risk_action (ok i) a es)
    simp only [execute_actions]
    exact ⟨h.1.trans hx.1, h.2.trans hx.2⟩

/-- Distinct constructors of `RiskActionType`, as a rewrite for `simp`. -/
theorem tp_ne_full_eq_false :
    (RiskActionType.TAKE_PROFIT = RiskActionType.FULL_STOP_LOSS) = False :=
  eq_false fun h => RiskActionType.noConfusion h

/-- Distinct constructors of `RiskActionType`, as a rewrite for `simp`. -/
theorem psl_ne_full_eq_false :
    (RiskActionType.PARTIAL_STOP_LOSS = RiskActionType.FULL_STOP_LOSS) = False :=
  eq_false fun h => RiskActionType.noConfusion h

/-! ## C1 -/

/-- C1, counterexample: at price 298 the partial stop of `samplePosition`
triggers, the close order fails (`close_ok` is constantly `false`), yet after
the tick `partial_stop_hit` is `true` while the stats show no successful close
— the flag was not left unchanged as the claim requires. -/
theorem C1_flag_set_despite_failed_close :
    (level_check_tick initialize_risk_settings (fun _ => false) (samplePosition 298)
        initial_stats).2.pos.partial_stop_hit = true ∧
    (level_check_tick initialize_risk_settings (fun _ => false) (samplePosition 298)
        initial_stats).2.stats = initial_stats := by
  norm_num [level_check_tick, calculate_actions, check_stop_loss, check_take_profit,
    check_take_profit_loop, check_trailing_stop, should_trigger_stop, should_take_profit,
    calculate_take_profit_price, initialize_risk_settings, samplePosition, execute_actions,
    execute_risk_action, initial_stats]

/-- C1 (amended): the hit flags (`partial_stop_hit` and the set of hit
take-profit levels) after a level-check tick are exactly the flags the risk
engine records when it emits the actions, independent of whether any close
order succeeds: the flags are set at action-emission time, before the close is
issued, and remain set when the close fails. -/
theorem C1_hit_flags_independent_of_close_outcome (rs : RiskSettings)
    (close_ok : Nat → Bool) (p : Position) (st : PerformanceStats) :
    (level_check_tick rs close_ok p st).2.pos.partial_stop_hit =
      (calculate_actions rs p).2.partial_stop_hit ∧
    (level_check_tick rs close_ok p st).2.pos.take_profit_levels_hit =
      (calculate_actions rs p).2.take_profit_levels_hit := by
  simp only [level_check_tick]
  exact execute_actions_flags close_ok (calculate_actions rs p).1 0
    ⟨(calculate_actions rs p).2, false, st⟩

/-! ## C2 -/

/-- C2, counterexample: a transient exchange error while listing the open
positions makes `get_open_positions` return `[]`, and the detect tick then
removes the managed symbol BNBUSDT from the store — the claim requires the
managed set to be unchanged. -/
theorem C2_transient_error_removes_managed_symbol :
    detect_and_manage_trades ["BNBUSDT"] FetchResult.err (fun e => some e)
        [⟨"BNBUSDT", 1, Side.LONG, 300, 10, true, [1]⟩] = [] ∧
    detect_and_manage_trades ["BNBUSDT"] FetchResult.err (fun e => some e)
        [⟨"BNBUSDT", 1, Side.LONG, 300, 10, true, [1]⟩] ≠
      [⟨"BNBUSDT", 1, Side.LONG, 300, 10, true, [1]⟩] := by
  constructor
  · rfl
  · decide

/-- C2 (amended): if listing the open positions fails with a transient
exchange error during a detect tick, the tick treats the empty answer as "no
position is open" and removes every managed symbol: the Position Store is
empty afterwards, whatever it held and however the per-symbol management
behaves. -/
theorem C2_fetch_error_empties_store (symbols : List String)
    (manage : StoredPosition → Option StoredPosition) (store : List StoredPosition) :
    detect_and_manage_trades symbols FetchResult.err manage store = [] := by
  unfold detect_and_manage_trades get_open_positions
  simp only [List.filter_nil, List.map_nil, List.foldl_nil]
  induction store with
  | nil => rfl
  | cons e rest ih => simp [List.filterMap_cons, ih]

/-! ## C4 -/

/-- The true range of the candle at index `i` against its predecessor, indexed
as the claim states it. -/
def true_range_at (klines : List Kline) (i : Nat) : ℚ :=
  true_range (klines.getD (i - 1) default) (klines.getD i default)

/-- C4, counterexample: with a single candle whose close is 100 the source
returns the constant `0.01`, not `close_last · 0.01 = 1` as the claim states. -/
theorem C4_short_series_default_is_constant :
    calculate_atr [⟨101, 99, 100⟩] = 1/100 ∧
    calculate_atr [⟨101, 99, 100⟩] ≠ 100 * (1/100) := by
  constructor
  · rfl
  · norm_num [calculate_atr]

/-- The last 14 entries of the source's true-range list are the true ranges at
indices `length - 14, ..., length - 1`, as the claim indexes them. -/
theorem lastN_true_ranges_eq (klines : List Kline) (h : 15 ≤ klines.length) :
    lastN 14 (true_ranges klines) =
      (List.range 14).map (fun j => true_range_at klines (klines.length - 14 + j)) := by
  have htr : (true_ranges klines).length = klines.length - 1 := by
    simp only [true_ranges, List.length_zipWith, List.length_tail]
    omega
  apply List.ext_getElem
  · simp only [lastN, List.length_drop, List.length_map, List.length_range, htr]
    omega
  · intro i h1 h2
    have hi : i < 14 := by simpa using h2
    simp only [lastN] at h1 ⊢
    rw [List.getElem_drop, List.getElem_map, List.getElem_range]
    simp only [true_ranges] at h1 ⊢
    rw [List.getElem_zipWith, List.getElem_tail]
    rw [true_range_at, List.getD_eq_getElem _ _ (by omega), List.getD_eq_getElem _ _ (by omega)]
    congr 2 <;> simp only [true_ranges, List.length_zipWith, List.length_tail] at * <;> omega

/-- C4 (amended): with fewer than 15 candles `_calculate_atr` returns the
constant `0.01` (not `close_last · 0.01`); with at least 15 candles it returns
the arithmetic mean of the last 14 true ranges, where the true range at index
`i` is `max(high_i - low_i, |high_i - close_(i-1)|, |low_i - close_(i-1)|)`. -/
theorem C4_atr_value (klines : List Kline) :
    calculate_atr klines =
      if klines.length < 15 then 1/100
      else (((List.range 14).map
        (fun j => true_range_at klines (klines.length - 14 + j))).sum) / 14 := by
  unfold calculate_atr
  by_cases h : klines.length < 15
  · rw [if_pos (by omega : klines.length < 14 + 1), if_pos h]
  · rw [if_neg (by omega : ¬ klines.length < 14 + 1), if_neg h,
      lastN_true_ranges_eq klines (by omega)]
    norm_num

/-! ## C3 -/

/-- The bounds the claim states for a full stop: strictly on the losing side of
the entry, and within `[entry·(1−0.05), entry·(1−0.015)]` for LONG, mirrored
for SHORT. -/
def full_stop_in_claimed_range (entry_price full_stop : ℚ) : Side → Prop
  | .LONG => full_stop < entry_price ∧
      entry_price * (1 - 5/100) ≤ full_stop ∧ full_stop ≤ entry_price * (1 - 15/1000)
  | .SHORT => entry_price < full_stop ∧
      entry_price * (1 + 15/1000) ≤ full_stop ∧ full_stop ≤ entry_price * (1 + 5/100)

/-- C3: for every entry price `> 0` and every base stop, the clamped full stop
of `_apply_stop_loss_limits` (under the default settings) lies strictly on the
losing side of the entry and within the claimed interval, and so does the
error-fallback full stop of `_get_default_stop_levels` — on both sides.  Every
code path that produces stop levels ends in one of these two (the base value,
including its own fallback, always passes through the clamp). -/
theorem C3_full_stop_within_clamp_bounds (entry_price base_stop : ℚ) (side : Side)
    (he : 0 < entry_price) :
    full_stop_in_claimed_range entry_price
        (apply_stop_loss_limits initialize_risk_settings entry_price base_stop side) side ∧
    full_stop_in_claimed_range entry_price
        ((get_default_stop_levels entry_price side).full_stop) side := by
  cases side <;>
    simp only [full_stop_in_claimed_range, apply_stop_loss_limits, get_default_stop_levels,
      initialize_risk_settings, min_def, max_def] <;>
    split_ifs <;>
    refine ⟨⟨?_, ?_, ?_⟩, ?_, ?_, ?_⟩ <;> linarith

/-- C3, witness: the bounds at entry 300, base stop 100, LONG. -/
theorem C3_full_stop_within_clamp_bounds_witness :
    (0 : ℚ) < 300 ∧
    (full_stop_in_claimed_range 300
        (apply_stop_loss_limits initialize_risk_settings 300 100 Side.LONG) Side.LONG ∧
     full_stop_in_claimed_range 300
        ((get_default_stop_levels 300 Side.LONG).full_stop) Side.LONG) :=
  ⟨by norm_num, C3_full_stop_within_clamp_bounds 300 100 Side.LONG (by norm_num)⟩

/-! ## C5 -/

/-- C5, counterexample: at price 295 (≤ full stop 295.5 and ≤ partial stop
298.2, no level hit yet) the tick emits TWO actions — a `PARTIAL_STOP_LOSS` of
0.3 and then a `FULL_STOP_LOSS` of only 0.7 — not a single `FULL_STOP_LOSS`
with the entire remaining quantity 1. -/
theorem C5_full_stop_tick_also_emits_partial :
    (calculate_actions initialize_risk_settings (samplePosition 295)).1 =
      [⟨RiskActionType.PARTIAL_STOP_LOSS, 3/10, none⟩,
       ⟨RiskActionType.FULL_STOP_LOSS, 7/10, none⟩] ∧
    (calculate_actions initialize_risk_settings (samplePosition 295)).1 ≠
      [⟨RiskActionType.FULL_STOP_LOSS, (samplePosition 295).quantity, none⟩] := by
  constructor <;>
    norm_num [calculate_actions, check_stop_loss, should_trigger_stop,
      initialize_risk_settings, samplePosition]

/-- C5 (amended): on a tick where the full-stop condition holds, the engine
emits a `FULL_STOP_LOSS` as the LAST action of the tick and no take-profit
action accompanies it (the tick returns early); but a `PARTIAL_STOP_LOSS` of
`quantity·partial_stop_percent` precedes it whenever the partial stop was not
yet hit, and the full-stop quantity is the entire current quantity only when
the partial flag is not set (and does not become set this tick) — otherwise it
is `quantity·(1 − partial_stop_percent)`, even when the stored quantity was
already reduced by earlier closes. -/
theorem C5_full_stop_emission_shape (rs : RiskSettings) (p : Position) (sl : StopLevels)
    (hsl : p.stop_loss_levels = some sl)
    (hfull : should_trigger_stop p.current_price sl.full_stop p.side = true) :
    (calculate_actions rs p).1 =
      (if !p.partial_stop_hit && should_trigger_stop p.current_price sl.partial_stop p.side then
        [⟨RiskActionType.PARTIAL_STOP_LOSS, p.quantity * rs.partial_stop_percent, none⟩]
       else []) ++
      [⟨RiskActionType.FULL_STOP_LOSS,
        (if p.partial_stop_hit || should_trigger_stop p.current_price sl.partial_stop p.side then
          p.quantity * (1 - rs.partial_stop_percent) else p.quantity), none⟩] ∧
    ∀ a ∈ (calculate_actions rs p).1, a.type ≠ RiskActionType.TAKE_PROFIT := by
  by_cases hp : p.partial_stop_hit <;>
    by_cases ht : should_trigger_stop p.current_price sl.partial_stop p.side = true <;>
    constructor <;>
    simp_all [calculate_actions, check_stop_loss, hsl]

/-- C5, witness: the emission shape at `samplePosition 295`. -/
theorem C5_full_stop_emission_shape_witness :
    should_trigger_stop (samplePosition 295).current_price ((591 : ℚ)/2)
      (samplePosition 295).side = true ∧
    ∀ a ∈ (calculate_actions initialize_risk_settings (samplePosition 295)).1,
      a.type ≠ RiskActionType.TAKE_PROFIT :=
  ⟨by norm_num [samplePosition, should_trigger_stop],
   (C5_full_stop_emission_shape initialize_risk_settings (samplePosition 295)
      ⟨591/2, 1491/5⟩ rfl (by norm_num [samplePosition, should_trigger_stop])).2⟩

/-! ## C6 -/

/-- `samplePosition` after a tick at price 300.75 in which take-profit level 1
fired and its close succeeded (the stored quantity dropped from 1 to 0.5),
re-observed at price 298. -/
def positionAfterTP1 : Position :=
  { (level_check_tick initialize_risk_settings (fun _ => true) (samplePosition (1203/4))
      initial_stats).2.pos with current_price := 298 }

/-- C6, counterexample: after take-profit level 1 closed half of the position,
the partial-stop action of the next tick carries quantity
`0.5 · 0.3 = 0.15` — the CURRENT quantity times the fraction — and not
`1 · 0.3 = 0.3` (the quantity at detection times the fraction) as the claim
states. -/
theorem C6_partial_stop_uses_current_quantity :
    (level_check_tick initialize_risk_settings (fun _ => true) positionAfterTP1
        initial_stats).1 =
      [⟨RiskActionType.PARTIAL_STOP_LOSS, 3/20, none⟩] ∧
    ((3 : ℚ)/20 ≠ 1 * (3/10)) := by
  constructor <;>
    norm_num [positionAfterTP1, level_check_tick, calculate_actions, check_stop_loss,
      check_take_profit, check_take_profit_loop, check_trailing_stop, should_trigger_stop,
      should_take_profit, calculate_take_profit_price, initialize_risk_settings,
      samplePosition, execute_actions, execute_risk_action, update_performance_stats,
      initial_stats, tp_ne_full_eq_false, psl_ne_full_eq_false]

/-- C6 (amended): when the partial stop triggers while `partial_stop_hit` is
still false, the emitted `PARTIAL_STOP_LOSS` carries quantity equal to the
position's CURRENT quantity (as reduced by any earlier partial closes)
multiplied by `partial_stop_percent` (default 0.30). -/
theorem C6_partial_stop_action_quantity (rs : RiskSettings) (p : Position) (sl : StopLevels)
    (hsl : p.stop_loss_levels = some sl) (hnp : p.partial_stop_hit = false)
    (htrig : should_trigger_stop p.current_price sl.partial_stop p.side = true) :
    ∃ rest, (check_stop_loss rs p).1 =
      ⟨RiskActionType.PARTIAL_STOP_LOSS, p.quantity * rs.partial_stop_percent, none⟩ :: rest := by
  unfold check_stop_loss
  rw [hsl]
  simp only [hnp, htrig, Bool.not_false, Bool.true_and, if_true]
  exact ⟨_, rfl⟩

/-- C6, witness: the partial-stop action at `samplePosition 298`. -/
theorem C6_partial_stop_action_quantity_witness :
    (samplePosition 298).partial_stop_hit = false ∧
    should_trigger_stop (samplePosition 298).current_price ((1491 : ℚ)/5)
      (samplePosition 298).side = true ∧
    ∃ rest, (check_stop_loss initialize_risk_settings (samplePosition 298)).1 =
      ⟨RiskActionType.PARTIAL_STOP_LOSS,
        (samplePosition 298).quantity * initialize_risk_settings.partial_stop_percent,
        none⟩ :: rest :=
  ⟨rfl, by norm_num [samplePosition, should_trigger_stop],
   C6_partial_stop_action_quantity initialize_risk_settings (samplePosition 298)
      ⟨591/2, 1491/5⟩ rfl rfl (by norm_num [samplePosition, should_trigger_stop])⟩

/-! ## C7 -/

/-- C7, counterexample: at price 301.05 all three take-profit levels fire in
one tick and every close succeeds; afterwards `total_take_profits = 3` but
`winning_trades = 3` as well — not 1, as the claim requires for a completed
ladder. -/
theorem C7_winning_trades_counts_each_level :
    (level_check_tick initialize_risk_settings (fun _ => true) (samplePosition (6021/20))
        initial_stats).2.stats.total_take_profits = 3 ∧
    (level_check_tick initialize_risk_settings (fun _ => true) (samplePosition (6021/20))
        initial_stats).2.stats.winning_trades = 3 ∧
    (3 : Nat) ≠ 1 := by
  refine ⟨?_, ?_, by norm_num⟩ <;>
    norm_num [level_check_tick, calculate_actions, check_stop_loss,
      check_take_profit, check_take_profit_loop, check_trailing_stop, should_trigger_stop,
      should_take_profit, calculate_take_profit_price, initialize_risk_settings,
      samplePosition, execute_actions, execute_risk_action, update_performance_stats,
      initial_stats, tp_ne_full_eq_false, psl_ne_full_eq_false]

/-- C7 (amended): executing a list of successful `TAKE_PROFIT` closes bumps
`winning_trades` once PER FIRED LEVEL, in lockstep with `total_take_profits`:
after the full three-level ladder both counters have increased by 3 (there is
no once-per-position increment). -/
theorem C7_take_profit_counters_per_level (acts : List RiskAction) (i : Nat) (es : ExecState)
    (h : ∀ a ∈ acts, a.type = RiskActionType.TAKE_PROFIT) :
    (execute_actions (fun _ => true) i acts es).stats.winning_trades =
      es.stats.winning_trades + acts.length ∧
    (execute_actions (fun _ => true) i acts es).stats.total_take_profits =
      es.stats.total_take_profits + acts.length := by
  induction acts generalizing i es with
  | nil => simp [execute_actions]
  | cons a rest ih =>
    have ha : a.type = RiskActionType.TAKE_PROFIT := h a (by simp)
    have hrest : ∀ b ∈ rest, b.type = RiskActionType.TAKE_PROFIT :=
      fun b hb => h b (by simp [hb])
    have hx := ih (i + 1) (execute_risk_action true a es) hrest
    have hes : (execute_risk_action true a es).stats.winning_trades =
        es.stats.winning_trades + 1 ∧
        (execute_risk_action true a es).stats.total_take_profits =
        es.stats.total_take_profits + 1 := by
      simp [execute_risk_action, update_performance_stats, ha, tp_ne_full_eq_false]
    simp only [execute_actions]
    refine ⟨?_, ?_⟩
    · rw [hx.1, hes.1, List.length_cons]
      omega
    · rw [hx.2, hes.2, List.length_cons]
      omega

/-- The three take-profit actions of a swept ladder (quantities of the default
fractions on quantity 1). -/
def threeTakeProfits : List RiskAction :=
  [⟨RiskActionType.TAKE_PROFIT, 1/2, some 1⟩,
   ⟨RiskActionType.TAKE_PROFIT, 3/10, some 2⟩,
   ⟨RiskActionType.TAKE_PROFIT, 1/5, some 3⟩]

/-- C7, witness: executing the three-level ladder from the zero counters. -/
theorem C7_take_profit_counters_per_level_witness :
    (∀ a ∈ threeTakeProfits, a.type = RiskActionType.TAKE_PROFIT) ∧
    (execute_actions (fun _ => true) 0 threeTakeProfits
        ⟨samplePosition 298, false, initial_stats⟩).stats.winning_trades =
      (⟨samplePosition 298, false, initial_stats⟩ : ExecState).stats.winning_trades +
        threeTakeProfits.length ∧
    (execute_actions (fun _ => true) 0 threeTakeProfits
        ⟨samplePosition 298, false, initial_stats⟩).stats.total_take_profits =
      (⟨samplePosition 298, false, initial_stats⟩ : ExecState).stats.total_take_profits +
        threeTakeProfits.length :=
  ⟨by simp [threeTakeProfits],
   (C7_take_profit_counters_per_level threeTakeProfits 0
      ⟨samplePosition 298, false, initial_stats⟩ (by simp [threeTakeProfits])).1,
   (C7_take_profit_counters_per_level threeTakeProfits 0
      ⟨samplePosition 298, false, initial_stats⟩ (by simp [threeTakeProfits])).2⟩

/-! ## C8 -/

/-- C8, counterexample: re-initialising an already-managed BNBUSDT position
(as a forced sync does) refreshes the entry price from 300 to 301 but ALSO
resets `partial_stop_hit` from `true` to `false` and empties the hit take-profit
levels — the claim requires the flags to be unchanged. -/
theorem C8_upsert_resets_hit_flags :
    store_set [⟨"BNBUSDT", 1, Side.LONG, 300, 10, true, [1]⟩]
        (initialize_position ⟨"BNBUSDT", 1, Side.LONG, 301, 10⟩) =
      [⟨"BNBUSDT", 1, Side.LONG, 301, 10, false, []⟩] ∧
    store_set [⟨"BNBUSDT", 1, Side.LONG, 300, 10, true, [1]⟩]
        (initialize_position ⟨"BNBUSDT", 1, Side.LONG, 301, 10⟩) ≠
      [⟨"BNBUSDT", 1, Side.LONG, 301, 10, true, [1]⟩] := by
  constructor
  · norm_num [store_set, initialize_position]
  · norm_num [store_set, initialize_position]

/-- C8 (amended): upserting an exchange snapshot through
`_initialize_position` refreshes entry price and leverage of the symbol's
entry but RESETS its management state: after the upsert the entry for the
snapshot's symbol always has `partial_stop_hit = false` and an empty set of
hit take-profit levels, whatever flags it carried before. -/
theorem C8_upsert_refreshes_and_resets (store : List StoredPosition)
    (snap : PositionSnapshot) (e : StoredPosition)
    (he : e ∈ store_set store (initialize_position snap))
    (hsym : e.symbol = snap.symbol) :
    e.entry_price = snap.entry_price ∧ e.leverage = snap.leverage ∧
    e.partial_stop_hit = false ∧ e.take_profit_levels_hit = [] := by
  unfold store_set at he
  split_ifs at he with hany
  · rcases List.mem_map.1 he with ⟨x, hx, hfx⟩
    by_cases hxs : x.symbol = (initialize_position snap).symbol
    · rw [if_pos hxs] at hfx
      subst hfx
      exact ⟨rfl, rfl, rfl, rfl⟩
    · rw [if_neg hxs] at hfx
      subst hfx
      exact absurd hsym hxs
  · rcases List.mem_append.1 he with hx | hx
    · exact absurd (List.any_eq_true.2 ⟨e, hx, by simp [initialize_position, hsym]⟩) hany
    · simp only [List.mem_singleton] at hx
      subst hx
      exact ⟨rfl, rfl, rfl, rfl⟩

/-- C8, witness: the refreshed-and-reset entry after re-upserting BNBUSDT. -/
theorem C8_upsert_refreshes_and_resets_witness :
    (⟨"BNBUSDT", 1, Side.LONG, 301, 10, false, []⟩ : StoredPosition) ∈
      store_set [⟨"BNBUSDT", 1, Side.LONG, 300, 10, true, [1]⟩]
        (initialize_position ⟨"BNBUSDT", 1, Side.LONG, 301, 10⟩) ∧
    ((⟨"BNBUSDT", 1, Side.LONG, 301, 10, false, []⟩ : StoredPosition).entry_price =
        (⟨"BNBUSDT", 1, Side.LONG, 301, 10⟩ : PositionSnapshot).entry_price ∧
     (⟨"BNBUSDT", 1, Side.LONG, 301, 10, false, []⟩ : StoredPosition).leverage =
        (⟨"BNBUSDT", 1, Side.LONG, 301, 10⟩ : PositionSnapshot).leverage ∧
     (⟨"BNBUSDT", 1, Side.LONG, 301, 10, false, []⟩ : StoredPosition).partial_stop_hit = false ∧
     (⟨"BNBUSDT", 1, Side.LONG, 301, 10, false, []⟩ : StoredPosition).take_profit_levels_hit =
        []) :=
  ⟨by norm_num [store_set, initialize_position],
   C8_upsert_refreshes_and_resets [⟨"BNBUSDT", 1, Side.LONG, 300, 10, true, [1]⟩]
      ⟨"BNBUSDT", 1, Side.LONG, 301, 10⟩ ⟨"BNBUSDT", 1, Side.LONG, 301, 10, false, []⟩
      (by norm_num [store_set, initialize_position]) rfl⟩

/-! ## C9 -/

/-- C9, counterexample: the margin tick of `trade_manager.py` at margin ratio
88 (percent, default threshold 70) emits the warning but submits NO close
order at all — the claim requires a 50% reduction of each open position
(`[1/2, 1/2]` for two positions of quantity 1) once the ratio exceeds 0.85. -/
theorem C9_margin_tick_never_reduces_positions :
    (check_margin_health 70 88 [1, 1]).1 = true ∧
    (check_margin_health 70 88 [1, 1]).2 = [] ∧
    ([] : List ℚ) ≠ [1/2, 1/2] := by
  refine ⟨?_, rfl, by simp⟩
  norm_num [check_margin_health]

/-- C9 (amended): the repository has two margin-check ticks.  The one of
`trade_manager.py` only emits a warning when the (percent-scaled) margin ratio
exceeds the threshold and never submits a close.  The 50%-per-position
reduction exists only in `main.py`'s `check_margin_health`: with the default
threshold 0.7 it warns when `ratio ≥ 0.7` and submits the half-quantity closes
exactly when `ratio > 0.85`. -/
theorem C9_margin_check_behaviour (ratio : ℚ) (qs : List ℚ) :
    (check_margin_health 70 ratio qs).2 = [] ∧
    ((check_margin_health 70 ratio qs).1 = true ↔ 70 < ratio) ∧
    ((MainPy.check_margin_health (7/10) ratio qs).2 =
      if (85 : ℚ)/100 < ratio then qs.map (fun q => q * (1/2)) else []) ∧
    ((MainPy.check_margin_health (7/10) ratio qs).1 = true ↔ (7 : ℚ)/10 ≤ ratio) := by
  refine ⟨rfl, by simp [check_margin_health], ?_, ?_⟩
  · unfold MainPy.check_margin_health MainPy.reduce_positions_automatically
    split_ifs <;> first | rfl | linarith
  · unfold MainPy.check_margin_health
    split_ifs with h <;> simp [h]

/-! ## C10 -/

/-- Membership in the hit set after one take-profit scan: a level number is in
the final set iff it was already hit, or it is one of the scanned level numbers
(`n + j` for the `j`-th config) whose target the current price reaches. -/
theorem check_take_profit_loop_hit_mem (p : Position) (lvls : List TPLevelCfg)
    (n : Nat) (hit : List Nat) (m : Nat) :
    m ∈ (check_take_profit_loop p lvls n hit).2 ↔
      m ∈ hit ∨ ∃ j, j < lvls.length ∧ m = n + j ∧
        should_take_profit p.current_price
          (calculate_take_profit_price p.entry_price (lvls.getD j default).profit p.side)
          p.side = true := by
  induction lvls generalizing n hit with
  | nil => simp [check_take_profit_loop]
  | cons lvl rest ih =>
    by_cases hmem : n ∈ hit
    · have hstep : (check_take_profit_loop p (lvl :: rest) n hit).2 =
          (check_take_profit_loop p rest (n + 1) hit).2 := by
        simp [check_take_profit_loop, hmem]
      rw [hstep, ih]
      simp only [List.length_cons]
      constructor
      · rintro (h | ⟨j, hj, heq, hf⟩)
        · exact Or.inl h
        · exact Or.inr ⟨j + 1, by simpa using hj, by omega,
            by simpa [List.getD_cons_succ] using hf⟩
      · rintro (h | ⟨j, hj, heq, hf⟩)
        · exact Or.inl h
        · cases j with
          | zero =>
            have hmn : m = n := by omega
            exact Or.inl (hmn ▸ hmem)
          | succ k =>
            exact Or.inr ⟨k, by omega, by omega, by simpa [List.getD_cons_succ] using hf⟩
    · by_cases hT : should_take_profit p.current_price
          (calculate_take_profit_price p.entry_price lvl.profit p.side) p.side = true
      · have hstep : (check_take_profit_loop p (lvl :: rest) n hit).2 =
            (check_take_profit_loop p rest (n + 1) (hit ++ [n])).2 := by
          simp [check_take_profit_loop, hmem, hT]
        rw [hstep, ih]
        simp only [List.length_cons]
        constructor
        · rintro (h | ⟨j, hj, heq, hf⟩)
          · rcases List.mem_append.1 h with h1 | h1
            · exact Or.inl h1
            · simp only [List.mem_singleton] at h1
              exact Or.inr ⟨0, by omega, by omega, by simpa [List.getD_cons_zero] using hT⟩
          · exact Or.inr ⟨j + 1, by omega, by omega, by simpa [List.getD_cons_succ] using hf⟩
        · rintro (h | ⟨j, hj, heq, hf⟩)
          · exact Or.inl (List.mem_append.2 (Or.inl h))
          · cases j with
            | zero => exact Or.inl (List.mem_append.2 (Or.inr (by simp; omega)))
            | succ k =>
              exact Or.inr ⟨k, by omega, by omega, by simpa [List.getD_cons_succ] using hf⟩
      · have hstep : (check_take_profit_loop p (lvl :: rest) n hit).2 =
            (check_take_profit_loop p rest (n + 1) hit).2 := by
          simp [check_take_profit_loop, hmem, hT]
        rw [hstep, ih]
        simp only [List.length_cons]
        constructor
        · rintro (h | ⟨j, hj, heq, hf⟩)
          · exact Or.inl h
          · exact Or.inr ⟨j + 1, by omega, by omega, by simpa [List.getD_cons_succ] using hf⟩
        · rintro (h | ⟨j, hj, heq, hf⟩)
          · exact Or.inl h
          · cases j with
            | zero => exact absurd (by simpa [List.getD_cons_zero] using hf) hT
            | succ k =>
              exact Or.inr ⟨k, by omega, by omega, by simpa [List.getD_cons_succ] using hf⟩

/-- Every action a take-profit scan starting at `level_num = n` emits carries
`level = some m` for some `m ≥ n`. -/
theorem check_take_profit_loop_action_levels (p : Position) (lvls : List TPLevelCfg)
    (n : Nat) (hit : List Nat) :
    ∀ a ∈ (check_take_profit_loop p lvls n hit).1, ∃ m, a.level = some m ∧ n ≤ m := by
  induction lvls generalizing n hit with
  | nil => simp [check_take_profit_loop]
  | cons lvl rest ih =>
    by_cases hmem : n ∈ hit
    · have hstep : (check_take_profit_loop p (lvl :: rest) n hit).1 =
          (check_take_profit_loop p rest (n + 1) hit).1 := by
        simp [check_take_profit_loop, hmem]
      rw [hstep]
      intro a ha
      obtain ⟨m, hm, hnm⟩ := ih (n + 1) hit a ha
      exact ⟨m, hm, by omega⟩
    · by_cases hT : should_take_profit p.current_price
          (calculate_take_profit_price p.entry_price lvl.profit p.side) p.side = true
      · have hstep : (check_take_profit_loop p (lvl :: rest) n hit).1 =
            ⟨RiskActionType.TAKE_PROFIT, p.quantity * lvl.close, some n⟩ ::
              (check_take_profit_loop p rest (n + 1) (hit ++ [n])).1 := by
          simp [check_take_profit_loop, hmem, hT]
        rw [hstep]
        intro a ha
        rcases List.mem_cons.1 ha with rfl | ha
        · exact ⟨n, rfl, le_refl n⟩
        · obtain ⟨m, hm, hnm⟩ := ih (n + 1) (hit ++ [n]) a ha
          exact ⟨m, hm, by omega⟩
      · have hstep : (check_take_profit_loop p (lvl :: rest) n hit).1 =
            (check_take_profit_loop p rest (n + 1) hit).1 := by
          simp [check_take_profit_loop, hmem, hT]
        rw [hstep]
        intro a ha
        obtain ⟨m, hm, hnm⟩ := ih (n + 1) hit a ha
        exact ⟨m, hm, by omega⟩

/-- The actions of one take-profit scan are emitted in strictly ascending
level order. -/
theorem check_take_profit_loop_sorted (p : Position) (lvls : List TPLevelCfg)
    (n : Nat) (hit : List Nat) :
    List.Pairwise (fun a b : RiskAction => a.level.getD 0 < b.level.getD 0)
      (check_take_profit_loop p lvls n hit).1 := by
  induction lvls generalizing n hit with
  | nil => simp [check_take_profit_loop]
  | cons lvl rest ih =>
    by_cases hmem : n ∈ hit
    · have hstep : (check_take_profit_loop p (lvl :: rest) n hit).1 =
          (check_take_profit_loop p rest (n + 1) hit).1 := by
        simp [check_take_profit_loop, hmem]
      rw [hstep]
      exact ih (n + 1) hit
    · by_cases hT : should_take_profit p.current_price
          (calculate_take_profit_price p.entry_price lvl.profit p.side) p.side = true
      · have hstep : (check_take_profit_loop p (lvl :: rest) n hit).1 =
            ⟨RiskActionType.TAKE_PROFIT, p.quantity * lvl.close, some n⟩ ::
              (check_take_profit_loop p rest (n + 1) (hit ++ [n])).1 := by
          simp [check_take_profit_loop, hmem, hT]
        rw [hstep]
        refine List.Pairwise.cons ?_ (ih (n + 1) (hit ++ [n]))
        intro b hb
        obtain ⟨m, hm, hnm⟩ := check_take_profit_loop_action_levels p rest (n + 1) (hit ++ [n]) b hb
        simp [hm]
        omega
      · have hstep : (check_take_profit_loop p (lvl :: rest) n hit).1 =
            (check_take_profit_loop p rest (n + 1) hit).1 := by
          simp [check_take_profit_loop, hmem, hT]
        rw [hstep]
        exact ih (n + 1) hit

/-- C10: for the default three-level ladder and a position with a positive
entry price, one `_check_take_profit` scan (i) only adds hit levels (each flag
transitions false→true only), (ii) preserves the ordering invariant
`hit[i] ⇒ hit[i−1]` — a level can only become hit together with or after its
predecessor, because the default targets are ordered and the scan walks them in
index order — and (iii) emits the fired `TAKE_PROFIT` actions in strictly
ascending index order. -/
theorem C10_take_profit_ladder_invariants (p : Position) (he : 0 < p.entry_price)
    (hinv : (2 ∈ p.take_profit_levels_hit → 1 ∈ p.take_profit_levels_hit) ∧
            (3 ∈ p.take_profit_levels_hit → 2 ∈ p.take_profit_levels_hit)) :
    (∀ m ∈ p.take_profit_levels_hit,
       m ∈ (check_take_profit initialize_risk_settings p).2.take_profit_levels_hit) ∧
    ((2 ∈ (check_take_profit initialize_risk_settings p).2.take_profit_levels_hit →
        1 ∈ (check_take_profit initialize_risk_settings p).2.take_profit_levels_hit) ∧
     (3 ∈ (check_take_profit initialize_risk_settings p).2.take_profit_levels_hit →
        2 ∈ (check_take_profit initialize_risk_settings p).2.take_profit_levels_hit)) ∧
    List.Pairwise (fun a b : RiskAction => a.level.getD 0 < b.level.getD 0)
      (check_take_profit initialize_risk_settings p).1 := by
  have hmono : ∀ pf1 pf2 : ℚ, pf1 ≤ pf2 →
      should_take_profit p.current_price
        (calculate_take_profit_price p.entry_price pf2 p.side) p.side = true →
      should_take_profit p.current_price
        (calculate_take_profit_price p.entry_price pf1 p.side) p.side = true := by
    intro pf1 pf2 hle h
    cases hside : p.side <;>
      simp only [should_take_profit, calculate_take_profit_price, hside,
        decide_eq_true_eq] at h ⊢ <;>
      nlinarith [he]
  have hpost : (check_take_profit initialize_risk_settings p).2.take_profit_levels_hit =
      (check_take_profit_loop p
        [⟨25/10000, 5/10⟩, ⟨30/10000, 3/10⟩, ⟨35/10000, 2/10⟩] 1
        p.take_profit_levels_hit).2 := rfl
  have hacts : (check_take_profit initialize_risk_settings p).1 =
      (check_take_profit_loop p
        [⟨25/10000, 5/10⟩, ⟨30/10000, 3/10⟩, ⟨35/10000, 2/10⟩] 1
        p.take_profit_levels_hit).1 := rfl
  have hchar := fun m => check_take_profit_loop_hit_mem p
    [⟨25/10000, 5/10⟩, ⟨30/10000, 3/10⟩, ⟨35/10000, 2/10⟩] 1 p.take_profit_levels_hit m
  simp only [List.length_cons, List.length_nil] at hchar
  refine ⟨?_, ⟨?_, ?_⟩, ?_⟩
  · intro m hm
    rw [hpost]
    exact (hchar m).2 (Or.inl hm)
  · intro h2
    rw [hpost] at h2 ⊢
    rcases (hchar 2).1 h2 with h | ⟨j, hj, heq, hf⟩
    · exact (hchar 1).2 (Or.inl (hinv.1 h))
    · have hj1 : j = 1 := by omega
      subst hj1
      rw [show ([⟨25/10000, 5/10⟩, ⟨30/10000, 3/10⟩, ⟨35/10000, 2/10⟩] :
          List TPLevelCfg).getD 1 default = ⟨30/10000, 3/10⟩ from rfl] at hf
      have hf1 := hmono (25/10000) (30/10000) (by norm_num) hf
      exact (hchar 1).2 (Or.inr ⟨0, by omega, by omega, hf1⟩)
  · intro h3
    rw [hpost] at h3 ⊢
    rcases (hchar 3).1 h3 with h | ⟨j, hj, heq, hf⟩
    · exact (hchar 2).2 (Or.inl (hinv.2 h))
    · have hj2 : j = 2 := by omega
      subst hj2
      rw [show ([⟨25/10000, 5/10⟩, ⟨30/10000, 3/10⟩, ⟨35/10000, 2/10⟩] :
          List TPLevelCfg).getD 2 default = ⟨35/10000, 2/10⟩ from rfl] at hf
      have hf2 := hmono (30/10000) (35/10000) (by norm_num) hf
      exact (hchar 2).2 (Or.inr ⟨1, by omega, by omega, hf2⟩)
  · rw [hacts]
    exact check_take_profit_loop_sorted p _ 1 _

/-- C10, witness: the ladder invariants at `samplePosition 298` (entry 300,
nothing hit yet). -/
theorem C10_take_profit_ladder_invariants_witness :
    (0 : ℚ) < (samplePosition 298).entry_price ∧
    List.Pairwise (fun a b : RiskAction => a.level.getD 0 < b.level.getD 0)
      (check_take_profit initialize_risk_settings (samplePosition 298)).1 :=
  ⟨by norm_num [samplePosition],
   (C10_take_profit_ladder_invariants (samplePosition 298) (by norm_num [samplePosition])
      (by simp [samplePosition])).2.2⟩
